import Mathlib

/-!
Shallow embedding of the TheAgentsClusters orchestration core
(`src/v1.1/master_controller.py` together with `src/agent_template.py`) and
proofs about its task queue, agent registry, dispatch loop, retry logic,
cancellation handling and bounded completion history.

Python `dict`s of task details are modelled by a record of the optional
fields the controller actually inspects; `uuid.uuid4()` draws are modelled
by a monotone counter (`next_id`), which captures exactly the property the
code relies on: every draw is distinct from every earlier draw.
-/

namespace TAC

/-- Helper for Python's `in` on strings: `pat` is a prefix of `l`. -/
def charsHavePre : List Char → List Char → Bool
  | _, [] => true
  | [], _ :: _ => false
  | a :: as, b :: bs => a = b && charsHavePre as bs

/-- Helper for Python's `in` on strings: `pat` occurs contiguously in the list. -/
def charsHaveSub (pat : List Char) : List Char → Bool
  | [] => charsHavePre [] pat
  | a :: as => charsHavePre (a :: as) pat || charsHaveSub pat as

/-- Python's `pat in s` on strings. -/
def strIn (pat s : String) : Bool := charsHaveSub pat.data s.data

/-- Python's `str.lower()`, written over the character list (ASCII-compatible
per-character lowering, as CPython does for ASCII text). -/
def pyLower (s : String) : String := String.mk (s.data.map Char.toLower)

/-- The fields of a task-details dict that the controller inspects
(`master_controller.py` lines 95-105, 147). A `none` field models an absent key. -/
structure TaskDetails where
  url : Option String := none
  description : Option String := none
  code : Option String := none
  code_key : Option String := none
  agent_type : Option String := none
deriving DecidableEq, Repr

/-- `'description' in task_info and pat in task_info['description'].lower()`. -/
def descLowerHas (task_info : TaskDetails) (pat : String) : Bool :=
  match task_info.description with
  | some d => strIn pat (pyLower d)
  | none => false

/-- A queue/task record as built by `assign_task` (lines 62-67): uuid task id,
details, status string and retry count. -/
structure Task where
  task_id : Nat
  details : TaskDetails
  status : String
  retry_count : Nat
deriving DecidableEq, Repr

/-- A registered agent: its id, the name of the Python class that was
constructed for it, and its mutable `state` string (`agent_template.py`). -/
structure AgentRec where
  agent_id : Nat
  agent_class_name : String
  state : String
deriving DecidableEq, Repr

/-- Agent-type inference of `_create_agent` (lines 96-106): with hint
`"default"` the effective type is inferred from the task details by ordered
first-match rules, otherwise the hint is used as is. -/
def effective_agent_type (agent_type : String) (task_info : TaskDetails) : String :=
  if agent_type = "default" then
    if task_info.url.isSome then "browser"
    else if descLowerHas task_info "create" then "tool_creator"
    else if task_info.code.isSome || task_info.code_key.isSome then "tool_executor"
    else if descLowerHas task_info "find" || descLowerHas task_info "research"
            || descLowerHas task_info "gather" then "info_hunter"
    else agent_type
  else agent_type

/-- Construction dispatch of `_create_agent` (lines 110-124): which agent class
is instantiated for an effective type; everything unmatched falls back to the
generic `Agent`. -/
def agent_class_for (effective_type : String) : String :=
  if effective_type = "browser" then "BrowserAgent"
  else if effective_type = "tool_creator" then "ToolCreatorAgent"
  else if effective_type = "tool_executor" then "ToolExecutorAgent"
  else if effective_type = "info_hunter" then "InfoHunterAgent"
  else "Agent"

/-- State of a `MasterController` (`__init__`, lines 25-37).  The list
`task_queue` has the left end of the Python deque at its head; `agents` and
`active_tasks` model dicts in insertion order.  The `*_log` fields are ghost
trace fields: `history_log` records every append ever made to the bounded
history, `enqueued_log` the task id returned by every `assign_task` call, and
`dropped_log` the id of every task that the capacity-failure path of `run()`
popped and re-enqueued under a fresh id. -/
structure MasterController where
  task_queue : List Task := []
  agents : List AgentRec := []
  active_tasks : List (Nat × Task) := []
  completed_tasks_history : List Task := []
  history_log : List Task := []
  enqueued_log : List Nat := []
  dropped_log : List Nat := []
  next_id : Nat := 0
  max_concurrent_agents : Nat := 5
  max_task_retries : Nat := 1
  running : Bool := true
deriving Repr

/-- `assign_task` (lines 59-74): build a fresh task record with a new uuid and
the given retry count; retries (`retry_count > 0`) are prepended
(`appendleft`), fresh tasks appended at the tail. -/
def assign_task (s : MasterController) (task_details : TaskDetails)
    (retry_count : Nat := 0) : Nat × MasterController :=
  let task_id := s.next_id
  let task : Task :=
    { task_id := task_id, details := task_details, status := "pending",
      retry_count := retry_count }
  let q := if retry_count > 0 then task :: s.task_queue else s.task_queue ++ [task]
  (task_id,
   { s with task_queue := q, next_id := s.next_id + 1,
            enqueued_log := s.enqueued_log ++ [task_id] })

/-- `_create_agent` (lines 76-132): under the creation lock (the whole step is
atomic here), refuse when the registry is at the bound, otherwise construct the
agent selected by `effective_agent_type` and register it. -/
def create_agent (s : MasterController) (agent_type : String := "default")
    (task_details : Option TaskDetails := none) :
    Option AgentRec × MasterController :=
  if s.max_concurrent_agents ≤ s.agents.length then (none, s)
  else
    let agent_id := s.next_id
    let task_info := task_details.getD {}
    let et := effective_agent_type agent_type task_info
    let a : AgentRec :=
      { agent_id := agent_id, agent_class_name := agent_class_for et, state := "idle" }
    (some a, { s with agents := s.agents ++ [a], next_id := s.next_id + 1 })

/-- How one processing of a task ends inside `Agent.process_task`: normal
return, an ordinary exception, or `asyncio.CancelledError`. -/
inductive Outcome
  | success
  | failure (msg : String)
  | cancelled
deriving DecidableEq, Repr

/-- Final `Agent.state` set by `Agent.receive_task` (`agent_template.py`
lines 28-41) for each outcome of `process_task`. -/
def agent_final_state : Outcome → String
  | .success => "finished"
  | .failure _ => "error"
  | .cancelled => "cancelled"

/-- Whether `Agent.receive_task` lets the exception escape (lines 33-42):
only `CancelledError` is re-raised; ordinary exceptions are absorbed. -/
def receive_task_reraises : Outcome → Bool
  | .cancelled => true
  | _ => false

/-- Task `status` written by `_run_agent_task` (lines 212-223).  An ordinary
processing failure is absorbed inside `Agent.receive_task`
(`agent_template.py` lines 38-42: it sets the agent's state to `"error"` and
returns normally), so the `await agent.receive_task(...)` at line 213
succeeds and line 214 writes `'completed'` — the `except Exception` branch at
lines 220-223 is unreachable for processing failures.  Only `CancelledError`
escapes `receive_task` and is recorded as `'cancelled'`. -/
def task_final_status : Outcome → String
  | .success => "completed"
  | .failure _ => "completed"
  | .cancelled => "cancelled"

/-- Whether `_run_agent_task` re-raises (line 219: only `CancelledError`). -/
def run_agent_task_reraises : Outcome → Bool
  | .cancelled => true
  | _ => false

/-- `maxlen` of `completed_tasks_history` (line 32). -/
def history_maxlen : Nat := 50

/-- `deque(maxlen=50).append`: append on the right, evicting from the left
whatever exceeds the bound. -/
def history_append (h : List Task) (t : Task) : List Task :=
  let h2 := h ++ [t]
  h2.drop (h2.length - history_maxlen)

/-- Dict lookup in `active_tasks` / `_task_meta_for_callback` recovery. -/
def lookupActive (l : List (Nat × Task)) (aid : Nat) : Option Task :=
  match l with
  | [] => none
  | p :: rest => if p.1 = aid then some p.2 else lookupActive rest aid

/-- `del self.active_tasks[agent_id]` (line 252). -/
def removeActive (l : List (Nat × Task)) (aid : Nat) : List (Nat × Task) :=
  l.filter (fun p => p.1 != aid)

/-- In-place mutation of the task meta dict held for agent `aid`. -/
def updateActive (l : List (Nat × Task)) (aid : Nat) (t : Task) :
    List (Nat × Task) :=
  l.map (fun p => if p.1 = aid then (aid, t) else p)

/-- Dict lookup in the agent registry. -/
def lookupAgent (l : List AgentRec) (aid : Nat) : Option AgentRec :=
  match l with
  | [] => none
  | a :: rest => if a.agent_id = aid then some a else lookupAgent rest aid

/-- `receive_agent_update` (lines 313-322): set the agent's state if it is
registered, otherwise do nothing. -/
def setAgentState (l : List AgentRec) (aid : Nat) (st : String) : List AgentRec :=
  l.map (fun a => if a.agent_id = aid then { a with state := st } else a)

/-- Tail of `_run_agent_task` (lines 206-229) once the wrapped
`receive_task` has ended with outcome `o`: record the task status, push the
agent's final state through `receive_agent_update`, and append the meta to the
completion history (the `finally` block, lines 225-228). -/
def run_agent_task (s : MasterController) (aid : Nat) (o : Outcome) :
    MasterController :=
  match lookupActive s.active_tasks aid with
  | none => s
  | some t =>
    let t2 : Task := { t with status := task_final_status o }
    { s with
      agents := setAgentState s.agents aid (agent_final_state o),
      active_tasks := updateActive s.active_tasks aid t2,
      completed_tasks_history := history_append s.completed_tasks_history t2,
      history_log := s.history_log ++ [t2] }

/-- The retry decision of `_handle_task_completion` (lines 255-262):
re-enqueue with `retry_count + 1` iff the agent ended in state `"error"` and
the retry budget is not yet exhausted. -/
def retry_requeue (agent_state : String) (retry_count max_task_retries : Nat) :
    Option Nat :=
  if agent_state = "error" then
    if retry_count < max_task_retries then some (retry_count + 1) else none
  else none

/-- `_handle_task_completion` (lines 231-277): map the finished unit back to
its agent, drop it from `active_tasks`, and apply the retry decision; an
unmapped completion is discarded with a warning. -/
def handle_task_completion (s : MasterController) (aid : Nat) : MasterController :=
  match lookupActive s.active_tasks aid with
  | none => s
  | some t =>
    let s1 := { s with active_tasks := removeActive s.active_tasks aid }
    match lookupAgent s1.agents aid with
    | none => s1
    | some a =>
      match retry_requeue a.state t.retry_count s1.max_task_retries with
      | some r2 => (assign_task s1 t.details r2).2
      | none => s1

/-- A dispatched unit finishing with outcome `o`: the end of `_run_agent_task`
followed by its `_handle_task_completion` done-callback. -/
def complete_unit (s : MasterController) (aid : Nat) (o : Outcome) :
    MasterController :=
  handle_task_completion (run_agent_task s aid o) aid

/-- Condition of the inner launch loop of `run()` (line 142). -/
def inner_loop_cond (s : MasterController) : Bool :=
  !s.task_queue.isEmpty && s.active_tasks.length < s.max_concurrent_agents

/-- One body iteration of the inner launch loop of `run()` (lines 142-174):
pop the head task, try to create an agent for it; on success register the
in-flight unit, on capacity failure re-enqueue the details through
`assign_task` with the retry count preserved (lines 166-174) — under a fresh
task id, the popped id being recorded in the ghost `dropped_log`. -/
def dispatch_once (s : MasterController) : MasterController :=
  match s.task_queue with
  | [] => s
  | t :: rest =>
    let s1 := { s with task_queue := rest }
    let hint := t.details.agent_type.getD "default"
    match create_agent s1 hint (some t.details) with
    | (some a, s2) =>
      { s2 with
        active_tasks := s2.active_tasks ++ [(a.agent_id, { t with status := "running" })] }
    | (none, s2) =>
      let s3 := (assign_task s2 t.details t.retry_count).2
      { s3 with dropped_log := s3.dropped_log ++ [t.task_id] }

/-- The state clearing done by `shutdown` (lines 279-311) once the in-flight
cancellations have run: stop, clear `active_tasks`, `agents`, `task_queue`. -/
def shutdown_clear (s : MasterController) : MasterController :=
  { s with running := false, active_tasks := [], agents := [], task_queue := [] }

/-- A freshly constructed controller (`__init__`). -/
def init_ctl (max_concurrent_agents max_task_retries : Nat) : MasterController :=
  { max_concurrent_agents := max_concurrent_agents,
    max_task_retries := max_task_retries }

/-- One atomic transition of the controller: an external `assign_task`, one
iteration of the launch loop, the completion of an in-flight unit, or the
shutdown clearing.  The event loop is single-threaded, so each of these runs
without interleaving. -/
inductive Step : MasterController → MasterController → Prop
  | assign (s : MasterController) (d : TaskDetails) :
      Step s (assign_task s d).2
  | dispatch (s : MasterController) (h : inner_loop_cond s = true) :
      Step s (dispatch_once s)
  | complete (s : MasterController) (aid : Nat) (o : Outcome)
      (h : (lookupActive s.active_tasks aid).isSome = true) :
      Step s (complete_unit s aid o)
  | shutdown (s : MasterController) :
      Step s (shutdown_clear s)

/-- The transitions of a run that is never killed: as `Step`, without the
shutdown clearing. -/
inductive RunStep : MasterController → MasterController → Prop
  | assign (s : MasterController) (d : TaskDetails) :
      RunStep s (assign_task s d).2
  | dispatch (s : MasterController) (h : inner_loop_cond s = true) :
      RunStep s (dispatch_once s)
  | complete (s : MasterController) (aid : Nat) (o : Outcome)
      (h : (lookupActive s.active_tasks aid).isSome = true) :
      RunStep s (complete_unit s aid o)

/-- States reachable from `init` through a transition relation `R`. -/
inductive ReachableFrom (R : MasterController → MasterController → Prop)
    (init : MasterController) : MasterController → Prop
  | refl : ReachableFrom R init init
  | tail {s s2 : MasterController} :
      ReachableFrom R init s → R s s2 → ReachableFrom R init s2

/-! ### Helper lemmas about the dict operations -/

theorem lookupActive_mem {l : List (Nat × Task)} {aid : Nat} {t : Task}
    (h : lookupActive l aid = some t) : (aid, t) ∈ l := by
  induction l with
  | nil => simp [lookupActive] at h
  | cons p rest ih =>
    by_cases hp : p.1 = aid
    · simp only [lookupActive, hp, if_pos] at h
      subst hp
      cases h
      simp
    · simp only [lookupActive, hp, if_neg, not_false_iff] at h
      exact List.mem_cons_of_mem p (ih h)

theorem lookupActive_update (l : List (Nat × Task)) (aid : Nat) (t : Task) :
    lookupActive (updateActive l aid t) aid =
      (lookupActive l aid).map (fun _ => t) := by
  induction l with
  | nil => simp [lookupActive, updateActive]
  | cons p rest ih =>
    simp only [updateActive, List.map_cons] at ih ⊢
    by_cases hp : p.1 = aid
    · simp [lookupActive, hp]
    · simp [lookupActive, hp, ih]

theorem removeActive_update (l : List (Nat × Task)) (aid : Nat) (t : Task) :
    removeActive (updateActive l aid t) aid = removeActive l aid := by
  induction l with
  | nil => simp [removeActive, updateActive]
  | cons p rest ih =>
    simp only [updateActive, List.map_cons] at ih ⊢
    by_cases hp : p.1 = aid
    · simpa [removeActive, List.filter_cons, hp] using ih
    · simpa [removeActive, List.filter_cons, hp] using ih

theorem mem_removeActive {l : List (Nat × Task)} {aid : Nat} {p : Nat × Task}
    (h : p ∈ removeActive l aid) : p ∈ l :=
  List.mem_of_mem_filter h

theorem keys_removeActive_nodup {l : List (Nat × Task)} {aid : Nat}
    (h : (l.map Prod.fst).Nodup) :
    ((removeActive l aid).map Prod.fst).Nodup :=
  h.sublist ((List.filter_sublist l).map Prod.fst)

theorem keys_updateActive (l : List (Nat × Task)) (aid : Nat) (t : Task) :
    (updateActive l aid t).map Prod.fst = l.map Prod.fst := by
  unfold updateActive
  rw [List.map_map]
  refine List.map_congr_left fun p _ => ?_
  by_cases hp : p.1 = aid <;> simp [hp]

theorem perm_cons_removeActive {l : List (Nat × Task)} {aid : Nat} {t : Task}
    (hnd : (l.map Prod.fst).Nodup) (hl : lookupActive l aid = some t) :
    l.Perm ((aid, t) :: removeActive l aid) := by
  induction l with
  | nil => simp [lookupActive] at hl
  | cons p rest ih =>
    simp only [List.map_cons, List.nodup_cons] at hnd
    by_cases hp : p.1 = aid
    · simp only [lookupActive, hp, if_pos] at hl
      injection hl with hl2
      have hrest : List.filter (fun q => q.1 != aid) rest = rest := by
        refine List.filter_eq_self.mpr fun q hq => ?_
        have hq1 : q.1 ≠ p.1 := fun hc =>
          hnd.1 (hc ▸ List.mem_map_of_mem Prod.fst hq)
        have hq2 : q.1 ≠ aid := by rw [← hp]; exact hq1
        simpa using hq2
      have hpe : p = (aid, t) := by
        rw [← hp, ← hl2]
      rw [hpe]
      simp only [removeActive, List.filter_cons, bne_self_eq_false,
        Bool.false_eq_true, not_false_iff, if_neg, hrest]
      exact List.Perm.refl _
    · simp only [lookupActive, hp, if_neg, not_false_iff] at hl
      have h2 := ih hnd.2 hl
      have h3 : removeActive (p :: rest) aid = p :: removeActive rest aid := by
        simp only [removeActive, List.filter_cons]
        have : (p.1 != aid) = true := by simpa using hp
        rw [this]
        simp
      rw [h3]
      exact (h2.cons p).trans (List.Perm.swap _ _ _)

theorem lookupAgent_mem {l : List AgentRec} {aid : Nat} {a : AgentRec}
    (h : lookupAgent l aid = some a) : a ∈ l := by
  induction l with
  | nil => simp [lookupAgent] at h
  | cons b rest ih =>
    by_cases hb : b.agent_id = aid
    · simp only [lookupAgent, hb, if_pos] at h
      cases h
      exact List.mem_cons_self _ _
    · simp only [lookupAgent, hb, if_neg, not_false_iff] at h
      exact List.mem_cons_of_mem b (ih h)

theorem lookupAgent_setAgentState (l : List AgentRec) (aid : Nat) (st : String) :
    lookupAgent (setAgentState l aid st) aid =
      (lookupAgent l aid).map (fun a => { a with state := st }) := by
  induction l with
  | nil => simp [lookupAgent, setAgentState]
  | cons a rest ih =>
    simp only [setAgentState, List.map_cons] at ih ⊢
    by_cases ha : a.agent_id = aid
    · simp [lookupAgent, ha]
    · simp [lookupAgent, ha, ih]

theorem agentIds_setAgentState (l : List AgentRec) (aid : Nat) (st : String) :
    (setAgentState l aid st).map AgentRec.agent_id = l.map AgentRec.agent_id := by
  unfold setAgentState
  rw [List.map_map]
  refine List.map_congr_left fun a _ => ?_
  by_cases ha : a.agent_id = aid <;> simp [ha]

theorem length_setAgentState (l : List AgentRec) (aid : Nat) (st : String) :
    (setAgentState l aid st).length = l.length := by
  simp [setAgentState]

theorem complete_unit_of_unmapped {s : MasterController} {aid : Nat}
    (o : Outcome) (ht : lookupActive s.active_tasks aid = none) :
    complete_unit s aid o = s := by
  unfold complete_unit run_agent_task handle_task_completion
  rw [ht]
  rw [ht]

/-- Explicit form of a unit's completion when the unit is mapped: the
in-place status/state mutations of `_run_agent_task` composed with the
removal and retry decision of `_handle_task_completion`. -/
theorem complete_unit_eq {s : MasterController} {aid : Nat} {t : Task}
    (o : Outcome) (ht : lookupActive s.active_tasks aid = some t) :
    complete_unit s aid o =
      (let t2 : Task := { t with status := task_final_status o }
       let s1 : MasterController :=
        { s with
          agents := setAgentState s.agents aid (agent_final_state o),
          active_tasks := removeActive s.active_tasks aid,
          completed_tasks_history := history_append s.completed_tasks_history t2,
          history_log := s.history_log ++ [t2] }
       match lookupAgent s1.agents aid with
       | none => s1
       | some a =>
         match retry_requeue a.state t.retry_count s.max_task_retries with
         | some r2 => (assign_task s1 t.details r2).2
         | none => s1) := by
  unfold complete_unit run_agent_task handle_task_completion
  rw [ht]
  simp only [lookupActive_update, ht, Option.map_some', removeActive_update]

/-! ### Structural invariants of the controller state -/

/-- Every task id and agent id occurring anywhere in the state. -/
def ids_of (s : MasterController) : List Nat :=
  s.enqueued_log ++ s.dropped_log ++ s.task_queue.map Task.task_id ++
    s.active_tasks.map Prod.fst ++ s.active_tasks.map (fun p => p.2.task_id) ++
    s.history_log.map Task.task_id ++ s.agents.map AgentRec.agent_id

theorem mem_ids_of_enqueued {s : MasterController} {i : Nat}
    (h : i ∈ s.enqueued_log) : i ∈ ids_of s := by
  simp only [ids_of, List.mem_append]
  tauto

theorem mem_ids_of_queue {s : MasterController} {t : Task}
    (h : t ∈ s.task_queue) : t.task_id ∈ ids_of s := by
  have h2 := List.mem_map_of_mem Task.task_id h
  simp only [ids_of, List.mem_append]
  tauto

theorem mem_ids_of_active_key {s : MasterController} {p : Nat × Task}
    (h : p ∈ s.active_tasks) : p.1 ∈ ids_of s := by
  have h2 := List.mem_map_of_mem Prod.fst h
  simp only [ids_of, List.mem_append]
  tauto

theorem mem_ids_of_active_task {s : MasterController} {p : Nat × Task}
    (h : p ∈ s.active_tasks) : p.2.task_id ∈ ids_of s := by
  have h2 := List.mem_map_of_mem (fun q : Nat × Task => q.2.task_id) h
  simp only [ids_of, List.mem_append]
  tauto

theorem mem_ids_of_agents {s : MasterController} {a : AgentRec}
    (h : a ∈ s.agents) : a.agent_id ∈ ids_of s := by
  have h2 := List.mem_map_of_mem AgentRec.agent_id h
  simp only [ids_of, List.mem_append]
  tauto

/-- Structural invariant maintained by every transition: the registry respects
the concurrency bound, every id in the state is below the uuid counter,
in-flight units are keyed by distinct agent ids, and `assign_task` never
produced the same id twice. -/
structure BaseInv (s : MasterController) : Prop where
  agents_bound : s.agents.length ≤ s.max_concurrent_agents
  ids_lt : ∀ i ∈ ids_of s, i < s.next_id
  active_keys_nodup : (s.active_tasks.map Prod.fst).Nodup
  enqueued_nodup : s.enqueued_log.Nodup

theorem next_id_fresh {s : MasterController} (h : BaseInv s) :
    s.next_id ∉ ids_of s :=
  fun hmem => lt_irrefl _ (h.ids_lt _ hmem)

theorem baseInv_init (a r : Nat) : BaseInv (init_ctl a r) := by
  constructor <;> simp [init_ctl, ids_of]

/-- The task record built by `assign_task` on state `s`. -/
def fresh_task (s : MasterController) (d : TaskDetails) (rc : Nat) : Task :=
  { task_id := s.next_id, details := d, status := "pending", retry_count := rc }

theorem assign_task_eq (s : MasterController) (d : TaskDetails) (rc : Nat) :
    assign_task s d rc =
      (s.next_id,
       { s with
         task_queue := if rc > 0 then fresh_task s d rc :: s.task_queue
                       else s.task_queue ++ [fresh_task s d rc],
         next_id := s.next_id + 1,
         enqueued_log := s.enqueued_log ++ [s.next_id] }) := rfl

theorem dispatch_once_success {s : MasterController} {t : Task} {rest : List Task}
    (hq : s.task_queue = t :: rest)
    (hcap : ¬ s.max_concurrent_agents ≤ s.agents.length) :
    dispatch_once s =
      { s with
        task_queue := rest,
        agents := s.agents ++
          [{ agent_id := s.next_id,
             agent_class_name :=
               agent_class_for (effective_agent_type
                 (t.details.agent_type.getD "default") t.details),
             state := "idle" }],
        active_tasks := s.active_tasks ++ [(s.next_id, { t with status := "running" })],
        next_id := s.next_id + 1 } := by
  simp [dispatch_once, hq, create_agent, hcap]

theorem dispatch_once_fail {s : MasterController} {t : Task} {rest : List Task}
    (hq : s.task_queue = t :: rest)
    (hcap : s.max_concurrent_agents ≤ s.agents.length) :
    dispatch_once s =
      { s with
        task_queue := if t.retry_count > 0 then
            fresh_task { s with task_queue := rest } t.details t.retry_count :: rest
          else rest ++ [fresh_task { s with task_queue := rest } t.details t.retry_count],
        enqueued_log := s.enqueued_log ++ [s.next_id],
        dropped_log := s.dropped_log ++ [t.task_id],
        next_id := s.next_id + 1 } := by
  simp [dispatch_once, hq, create_agent, hcap, assign_task, fresh_task]

theorem ids_of_assign_sub {s : MasterController} {d : TaskDetails} {rc : Nat} :
    ∀ i ∈ ids_of (assign_task s d rc).2, i = s.next_id ∨ i ∈ ids_of s := by
  intro i hi
  rw [assign_task_eq] at hi
  by_cases hrc : rc > 0 <;>
    simp only [hrc, if_true, if_false, ids_of, List.mem_append, List.map_append,
      List.map_cons, List.mem_cons, List.map_nil, List.mem_singleton,
      fresh_task, iff_true, iff_false, ite_true, ite_false] at hi ⊢ <;>
    tauto

theorem baseInv_assign {s : MasterController} (h : BaseInv s)
    (d : TaskDetails) (rc : Nat) : BaseInv (assign_task s d rc).2 := by
  constructor
  · have h2 : (assign_task s d rc).2.agents = s.agents := by rw [assign_task_eq]
    have h3 : (assign_task s d rc).2.max_concurrent_agents
        = s.max_concurrent_agents := by rw [assign_task_eq]
    rw [h2, h3]
    exact h.agents_bound
  · intro i hi
    have h2 : (assign_task s d rc).2.next_id = s.next_id + 1 := by rw [assign_task_eq]
    rw [h2]
    rcases ids_of_assign_sub i hi with rfl | hold
    · omega
    · have := h.ids_lt i hold
      omega
  · have h2 : (assign_task s d rc).2.active_tasks = s.active_tasks := by
      rw [assign_task_eq]
    rw [h2]
    exact h.active_keys_nodup
  · have hfresh : s.next_id ∉ s.enqueued_log := fun hm =>
      next_id_fresh h (mem_ids_of_enqueued hm)
    have h2 : (assign_task s d rc).2.enqueued_log = s.enqueued_log ++ [s.next_id] := by
      rw [assign_task_eq]
    rw [h2]
    refine List.Nodup.append h.enqueued_nodup (List.nodup_singleton _) ?_
    intro a ha hb
    simp only [List.mem_singleton] at hb
    exact hfresh (hb ▸ ha)

theorem ids_of_dispatch_fail_sub {s : MasterController} {t : Task}
    {rest : List Task} (hq : s.task_queue = t :: rest)
    (hcap : s.max_concurrent_agents ≤ s.agents.length) :
    ∀ i ∈ ids_of (dispatch_once s), i = s.next_id ∨ i ∈ ids_of s := by
  intro i hi
  rw [dispatch_once_fail hq hcap] at hi
  by_cases hrc : t.retry_count > 0 <;>
    simp only [ids_of, fresh_task, hrc, if_true, if_false, ite_true, ite_false,
      List.mem_append, List.map_append, List.map_cons, List.mem_cons,
      List.map_nil, List.mem_singleton] at hi <;>
    simp only [ids_of, hq, List.map_cons, List.mem_append, List.mem_cons] <;>
    tauto

theorem ids_of_dispatch_success_sub {s : MasterController} {t : Task}
    {rest : List Task} (hq : s.task_queue = t :: rest)
    (hcap : ¬ s.max_concurrent_agents ≤ s.agents.length) :
    ∀ i ∈ ids_of (dispatch_once s), i = s.next_id ∨ i ∈ ids_of s := by
  intro i hi
  rw [dispatch_once_success hq hcap] at hi
  simp only [ids_of, List.mem_append, List.map_append, List.map_cons,
    List.mem_cons, List.map_nil, List.mem_singleton] at hi
  simp only [ids_of, hq, List.map_cons, List.mem_append, List.mem_cons]
  tauto

theorem baseInv_dispatch {s : MasterController} (h : BaseInv s) :
    BaseInv (dispatch_once s) := by
  cases hq : s.task_queue with
  | nil =>
    have h2 : dispatch_once s = s := by simp [dispatch_once, hq]
    rw [h2]
    exact h
  | cons t rest =>
    by_cases hcap : s.max_concurrent_agents ≤ s.agents.length
    · constructor
      · have e1 : (dispatch_once s).agents = s.agents := by
          rw [dispatch_once_fail hq hcap]
        have e2 : (dispatch_once s).max_concurrent_agents
            = s.max_concurrent_agents := by rw [dispatch_once_fail hq hcap]
        rw [e1, e2]
        exact h.agents_bound
      · intro i hi
        have e3 : (dispatch_once s).next_id = s.next_id + 1 := by
          rw [dispatch_once_fail hq hcap]
        rw [e3]
        rcases ids_of_dispatch_fail_sub hq hcap i hi with rfl | hold
        · omega
        · have := h.ids_lt i hold
          omega
      · have e4 : (dispatch_once s).active_tasks = s.active_tasks := by
          rw [dispatch_once_fail hq hcap]
        rw [e4]
        exact h.active_keys_nodup
      · have e5 : (dispatch_once s).enqueued_log = s.enqueued_log ++ [s.next_id] := by
          rw [dispatch_once_fail hq hcap]
        rw [e5]
        have hfresh : s.next_id ∉ s.enqueued_log := fun hm =>
          next_id_fresh h (mem_ids_of_enqueued hm)
        refine List.Nodup.append h.enqueued_nodup (List.nodup_singleton _) ?_
        intro a ha hb
        simp only [List.mem_singleton] at hb
        exact hfresh (hb ▸ ha)
    · constructor
      · have e1 : (dispatch_once s).agents.length = s.agents.length + 1 := by
          rw [dispatch_once_success hq hcap]
          simp
        have e2 : (dispatch_once s).max_concurrent_agents
            = s.max_concurrent_agents := by rw [dispatch_once_success hq hcap]
        rw [e1, e2]
        omega
      · intro i hi
        have e3 : (dispatch_once s).next_id = s.next_id + 1 := by
          rw [dispatch_once_success hq hcap]
        rw [e3]
        rcases ids_of_dispatch_success_sub hq hcap i hi with rfl | hold
        · omega
        · have := h.ids_lt i hold
          omega
      · have e4 : (dispatch_once s).active_tasks
            = s.active_tasks ++ [(s.next_id, { t with status := "running" })] := by
          rw [dispatch_once_success hq hcap]
        rw [e4]
        simp only [List.map_append, List.map_cons, List.map_nil]
        refine List.Nodup.append h.active_keys_nodup (List.nodup_singleton _) ?_
        intro a ha hb
        simp only [List.mem_singleton] at hb
        subst hb
        rcases List.mem_map.mp ha with ⟨p, hp, hpf⟩
        have := h.ids_lt _ (mem_ids_of_active_key hp)
        omega
      · have e5 : (dispatch_once s).enqueued_log = s.enqueued_log := by
          rw [dispatch_once_success hq hcap]
        rw [e5]
        exact h.enqueued_nodup

/-- The state left by `_run_agent_task`'s finally block plus the in-flight
removal, before the retry decision. -/
def post_run_state (s : MasterController) (aid : Nat) (t : Task) (o : Outcome) :
    MasterController :=
  { s with
    agents := setAgentState s.agents aid (agent_final_state o),
    active_tasks := removeActive s.active_tasks aid,
    completed_tasks_history :=
      history_append s.completed_tasks_history { t with status := task_final_status o },
    history_log := s.history_log ++ [{ t with status := task_final_status o }] }

theorem complete_unit_cases {s : MasterController} {aid : Nat} {t : Task}
    (o : Outcome) (ht : lookupActive s.active_tasks aid = some t) :
    complete_unit s aid o = post_run_state s aid t o ∨
      ∃ r2, retry_requeue (agent_final_state o) t.retry_count s.max_task_retries = some r2 ∧
        complete_unit s aid o = (assign_task (post_run_state s aid t o) t.details r2).2 := by
  rw [complete_unit_eq o ht]
  cases hA : lookupAgent (setAgentState s.agents aid (agent_final_state o)) aid with
  | none =>
    left
    simp only [hA]
    rfl
  | some a =>
    have ha2 : ∃ b, lookupAgent s.agents aid = some b ∧ a = { b with state := agent_final_state o } := by
      have := lookupAgent_setAgentState s.agents aid (agent_final_state o)
      rw [hA] at this
      cases hb : lookupAgent s.agents aid with
      | none => rw [hb] at this; simp at this
      | some b =>
        rw [hb] at this
        simp only [Option.map_some'] at this
        exact ⟨b, rfl, Option.some.inj this⟩
    rcases ha2 with ⟨b, _, rfl⟩
    cases hr : retry_requeue (agent_final_state o) t.retry_count s.max_task_retries with
    | none =>
      left
      simp only [hA, hr]
      rfl
    | some r2 =>
      right
      refine ⟨r2, rfl, ?_⟩
      simp only [hA, hr]
      rfl

theorem ids_of_post_run_sub {s : MasterController} {aid : Nat} {t : Task}
    (o : Outcome) (ht : lookupActive s.active_tasks aid = some t) :
    ∀ i ∈ ids_of (post_run_state s aid t o), i ∈ ids_of s := by
  intro i hi
  have hmem : (aid, t) ∈ s.active_tasks := lookupActive_mem ht
  simp only [ids_of, post_run_state, List.mem_append, List.map_append,
    List.map_cons, List.mem_cons, List.map_nil, List.mem_singleton,
    agentIds_setAgentState] at hi
  simp only [ids_of, List.mem_append]
  rcases hi with ((((((hi | hi) | hi) | hi) | hi) | hi) | hi)
  · tauto
  · tauto
  · tauto
  · rcases List.mem_map.mp hi with ⟨p, hp, rfl⟩
    have : p.1 ∈ s.active_tasks.map Prod.fst :=
      List.mem_map_of_mem Prod.fst (mem_removeActive hp)
    tauto
  · rcases List.mem_map.mp hi with ⟨p, hp, rfl⟩
    have : p.2.task_id ∈ s.active_tasks.map (fun q => q.2.task_id) :=
      List.mem_map_of_mem _ (mem_removeActive hp)
    tauto
  · rcases hi with hi | hi
    · tauto
    · rcases hi with rfl | hi
      · have : t.task_id ∈ s.active_tasks.map (fun q => q.2.task_id) :=
          List.mem_map_of_mem _ hmem
        tauto
      · simp at hi
  · tauto

theorem baseInv_post_run {s : MasterController} {aid : Nat} {t : Task}
    (h : BaseInv s) (o : Outcome)
    (ht : lookupActive s.active_tasks aid = some t) :
    BaseInv (post_run_state s aid t o) := by
  constructor
  · have e1 : (post_run_state s aid t o).agents.length = s.agents.length := by
      simp [post_run_state, length_setAgentState]
    have e2 : (post_run_state s aid t o).max_concurrent_agents
        = s.max_concurrent_agents := rfl
    rw [e1, e2]
    exact h.agents_bound
  · intro i hi
    have e3 : (post_run_state s aid t o).next_id = s.next_id := rfl
    rw [e3]
    exact h.ids_lt i (ids_of_post_run_sub o ht i hi)
  · have e4 : (post_run_state s aid t o).active_tasks
        = removeActive s.active_tasks aid := rfl
    rw [e4]
    exact keys_removeActive_nodup h.active_keys_nodup
  · exact h.enqueued_nodup

theorem baseInv_complete {s : MasterController} (h : BaseInv s)
    (aid : Nat) (o : Outcome) : BaseInv (complete_unit s aid o) := by
  cases ht : lookupActive s.active_tasks aid with
  | none =>
    rw [complete_unit_of_unmapped o ht]
    exact h
  | some t =>
    rcases complete_unit_cases o ht with he | ⟨r2, _, he⟩
    · rw [he]
      exact baseInv_post_run h o ht
    · rw [he]
      exact baseInv_assign (baseInv_post_run h o ht) t.details r2

theorem baseInv_shutdown {s : MasterController} (h : BaseInv s) :
    BaseInv (shutdown_clear s) := by
  constructor
  · simp [shutdown_clear]
  · intro i hi
    have : i ∈ ids_of s := by
      simp only [ids_of, shutdown_clear, List.mem_append, List.map_nil,
        List.mem_singleton] at hi ⊢
      tauto
    exact h.ids_lt i this
  · simp [shutdown_clear]
  · exact h.enqueued_nodup

theorem baseInv_step {s s2 : MasterController} (hs : Step s s2)
    (h : BaseInv s) : BaseInv s2 := by
  cases hs with
  | assign d => exact baseInv_assign h d 0
  | dispatch hcond => exact baseInv_dispatch h
  | complete aid o hmem => exact baseInv_complete h aid o
  | shutdown => exact baseInv_shutdown h

theorem baseInv_reachable {init s : MasterController}
    (h0 : BaseInv init) (hr : ReachableFrom Step init s) : BaseInv s := by
  induction hr with
  | refl => exact h0
  | tail hr2 hstep ih => exact baseInv_step hstep ih

theorem runStep_step {s s2 : MasterController} (h : RunStep s s2) : Step s s2 := by
  cases h with
  | assign d => exact Step.assign _ d
  | dispatch h2 => exact Step.dispatch _ h2
  | complete aid o h2 => exact Step.complete _ aid o h2

theorem runReachable_reachable {init s : MasterController}
    (h : ReachableFrom RunStep init s) : ReachableFrom Step init s := by
  induction h with
  | refl => exact ReachableFrom.refl
  | tail hr2 hstep ih => exact ReachableFrom.tail ih (runStep_step hstep)

theorem dispatch_once_consts (s : MasterController) :
    (dispatch_once s).max_concurrent_agents = s.max_concurrent_agents ∧
      (dispatch_once s).max_task_retries = s.max_task_retries := by
  cases hq : s.task_queue with
  | nil => simp [dispatch_once, hq]
  | cons t rest =>
    by_cases hcap : s.max_concurrent_agents ≤ s.agents.length
    · rw [dispatch_once_fail hq hcap]
      exact ⟨rfl, rfl⟩
    · rw [dispatch_once_success hq hcap]
      exact ⟨rfl, rfl⟩

theorem complete_unit_consts (s : MasterController) (aid : Nat) (o : Outcome) :
    (complete_unit s aid o).max_concurrent_agents = s.max_concurrent_agents ∧
      (complete_unit s aid o).max_task_retries = s.max_task_retries := by
  cases ht : lookupActive s.active_tasks aid with
  | none =>
    rw [complete_unit_of_unmapped o ht]
    exact ⟨rfl, rfl⟩
  | some t =>
    rcases complete_unit_cases o ht with he | ⟨r2, _, he⟩ <;> rw [he]
    · exact ⟨rfl, rfl⟩
    · rw [assign_task_eq]
      exact ⟨rfl, rfl⟩

theorem step_consts {s s2 : MasterController} (h : Step s s2) :
    s2.max_concurrent_agents = s.max_concurrent_agents ∧
      s2.max_task_retries = s.max_task_retries := by
  cases h with
  | assign d => rw [assign_task_eq]; exact ⟨rfl, rfl⟩
  | dispatch h2 => exact dispatch_once_consts s
  | complete aid o h2 => exact complete_unit_consts s aid o
  | shutdown => exact ⟨rfl, rfl⟩

theorem reachable_consts {init s : MasterController}
    (hs : ReachableFrom Step init s) :
    s.max_concurrent_agents = init.max_concurrent_agents ∧
      s.max_task_retries = init.max_task_retries := by
  induction hs with
  | refl => exact ⟨rfl, rfl⟩
  | tail hr2 hstep ih =>
    have := step_consts hstep
    exact ⟨this.1.trans ih.1, this.2.trans ih.2⟩

/-- **C1**: at every state reachable from a fresh controller by any sequence of
task arrivals, launch-loop iterations, unit completions and shutdowns, the
number of registered agents is at most `max_concurrent_agents`, and whenever
the registry is full, `_create_agent` returns `None` without registering
anything (the guarded check of lines 79-81, which every registration path goes
through). -/
theorem concurrency_bound_c1 (maxA maxR : Nat) (s : MasterController)
    (hs : ReachableFrom Step (init_ctl maxA maxR) s) :
    s.agents.length ≤ maxA ∧
      (maxA ≤ s.agents.length →
        ∀ ty td, (create_agent s ty td).1 = none) := by
  have hb := baseInv_reachable (baseInv_init maxA maxR) hs
  have hc : s.max_concurrent_agents = maxA := (reachable_consts hs).1
  constructor
  · rw [← hc]
    exact hb.agents_bound
  · intro hfull ty td
    have : s.max_concurrent_agents ≤ s.agents.length := by rw [hc]; exact hfull
    simp [create_agent, this]

theorem concurrency_bound_c1_witness :
    (assign_task (init_ctl 3 1) {}).2.agents.length ≤ 3 ∧
      (3 ≤ (assign_task (init_ctl 3 1) {}).2.agents.length →
        ∀ ty td, (create_agent (assign_task (init_ctl 3 1) {}).2 ty td).1 = none) :=
  concurrency_bound_c1 3 1 _ (ReachableFrom.tail ReachableFrom.refl (Step.assign _ {}))

theorem complete_unit_agents_ids (s : MasterController) (aid : Nat) (o : Outcome) :
    (complete_unit s aid o).agents.map AgentRec.agent_id
      = s.agents.map AgentRec.agent_id := by
  cases ht : lookupActive s.active_tasks aid with
  | none => rw [complete_unit_of_unmapped o ht]
  | some t =>
    rcases complete_unit_cases o ht with he | ⟨r2, _, he⟩ <;> rw [he]
    · exact agentIds_setAgentState s.agents aid (agent_final_state o)
    · rw [assign_task_eq]
      exact agentIds_setAgentState s.agents aid (agent_final_state o)

theorem runStep_agents_mono {s s2 : MasterController} (h : RunStep s s2) :
    s.agents.length ≤ s2.agents.length := by
  cases h with
  | assign d =>
    rw [assign_task_eq]
  | dispatch h2 =>
    cases hq : s.task_queue with
    | nil => simp [dispatch_once, hq]
    | cons t rest =>
      by_cases hcap : s.max_concurrent_agents ≤ s.agents.length
      · rw [dispatch_once_fail hq hcap]
      · rw [dispatch_once_success hq hcap]
        simp
  | complete aid o h2 =>
    have : (complete_unit s aid o).agents.length = s.agents.length := by
      have := complete_unit_agents_ids s aid o
      have h3 := congrArg List.length this
      simpa using h3
    omega

theorem runReachable_agents_mono {s s2 : MasterController}
    (h : ReachableFrom RunStep s s2) :
    s.agents.length ≤ s2.agents.length ∧
      s2.max_concurrent_agents = s.max_concurrent_agents := by
  induction h with
  | refl => exact ⟨le_refl _, rfl⟩
  | tail hr2 hstep ih =>
    exact ⟨ih.1.trans (runStep_agents_mono hstep),
      (step_consts (runStep_step hstep)).1.trans ih.2⟩

/-- **C10**: completing a dispatched unit never removes its agent from the
registry (`_handle_task_completion` deletes only the `active_tasks` entry and
the task-meta attribute); only `shutdown` clears the registry; hence in any
run without a shutdown, once the registry has reached the concurrency bound,
every later `_create_agent` call returns `None`, no matter how many dispatched
units have finished. -/
theorem registry_never_shrinks_c10 :
    (∀ s aid o, (complete_unit s aid o).agents.map AgentRec.agent_id
        = s.agents.map AgentRec.agent_id) ∧
      (∀ s : MasterController, (shutdown_clear s).agents = []) ∧
      (∀ s s2 : MasterController, ReachableFrom RunStep s s2 →
        s.max_concurrent_agents ≤ s.agents.length →
        ∀ ty td, (create_agent s2 ty td).1 = none) := by
  refine ⟨complete_unit_agents_ids, fun s => rfl, fun s s2 hr hfull ty td => ?_⟩
  have hm := runReachable_agents_mono hr
  have : s2.max_concurrent_agents ≤ s2.agents.length := by
    rw [hm.2]
    exact hfull.trans hm.1
  simp [create_agent, this]

/-- A controller whose registry is already at its bound of one agent. -/
def full_registry_ctl : MasterController :=
  { agents := [{ agent_id := 0, agent_class_name := "Agent", state := "finished" }],
    max_concurrent_agents := 1 }

theorem registry_never_shrinks_c10_witness :
    full_registry_ctl.max_concurrent_agents ≤ full_registry_ctl.agents.length ∧
      (create_agent full_registry_ctl "default" none).1 = none :=
  ⟨by decide,
   registry_never_shrinks_c10.2.2 _ _ ReachableFrom.refl (by decide) "default" none⟩

theorem complete_cancelled_no_requeue (s : MasterController) (aid : Nat) :
    (complete_unit s aid Outcome.cancelled).task_queue = s.task_queue ∧
      (complete_unit s aid Outcome.cancelled).enqueued_log = s.enqueued_log := by
  cases ht : lookupActive s.active_tasks aid with
  | none =>
    rw [complete_unit_of_unmapped _ ht]
    exact ⟨rfl, rfl⟩
  | some t =>
    rcases complete_unit_cases Outcome.cancelled ht with he | ⟨r2, hr, he⟩
    · rw [he]
      exact ⟨rfl, rfl⟩
    · simp [retry_requeue, agent_final_state] at hr

/-- **C4**: a unit cancelled mid-processing leaves the agent in state
`"cancelled"` (never `"error"`), the `CancelledError` is re-raised both by
`Agent.receive_task` and by the `_run_agent_task` wrapper, and the completion
handler performs no re-enqueue for it — cancellation triggers no retry and
consumes no retry budget. -/
theorem cancellation_propagation_c4 :
    agent_final_state Outcome.cancelled = "cancelled" ∧
      agent_final_state Outcome.cancelled ≠ "error" ∧
      receive_task_reraises Outcome.cancelled = true ∧
      run_agent_task_reraises Outcome.cancelled = true ∧
      (∀ r m, retry_requeue (agent_final_state Outcome.cancelled) r m = none) ∧
      (∀ s aid, (complete_unit s aid Outcome.cancelled).task_queue = s.task_queue ∧
        (complete_unit s aid Outcome.cancelled).enqueued_log = s.enqueued_log) := by
  refine ⟨rfl, by decide, rfl, rfl, fun r m => ?_, complete_cancelled_no_requeue⟩
  simp [retry_requeue, agent_final_state]

/-- Total number of `assign_task` calls for one logical task starting at
`retry_count = r` whose every processing attempt ends with the agent in state
`"error"`: the present enqueue, plus the chain started by the retry decision
of `_handle_task_completion` (which re-enqueues with `retry_count + 1` while
`retry_count < max_task_retries`). -/
def failing_enqueue_total (max_task_retries r : Nat) : Nat :=
  if r < max_task_retries then 1 + failing_enqueue_total max_task_retries (r + 1)
  else 1
termination_by max_task_retries - r

/-- The recursion of `failing_enqueue_total` is exactly the retry decision of
`_handle_task_completion` applied to a failed attempt. -/
theorem failing_enqueue_total_eq (m r : Nat) :
    failing_enqueue_total m r =
      (match retry_requeue "error" r m with
       | some r2 => 1 + failing_enqueue_total m r2
       | none => 1) := by
  rw [failing_enqueue_total]
  by_cases h : r < m <;> simp [retry_requeue, h]

theorem failing_enqueue_total_val :
    ∀ k m r, m - r = k → failing_enqueue_total m r = m - r + 1 := by
  intro k
  induction k with
  | zero =>
    intro m r hk
    have h2 : ¬ r < m := by omega
    rw [failing_enqueue_total, if_neg h2]
    omega
  | succ n ih =>
    intro m r hk
    have hlt : r < m := by omega
    rw [failing_enqueue_total, if_pos hlt, ih m (r + 1) (by omega)]
    omega

/-- The first attempt of the always-failing demo run: one fresh task assigned
and dispatched on a controller with `max_concurrent_agents = 2` and
`max_task_retries = 1`. -/
def c2_mid : MasterController := dispatch_once (assign_task (init_ctl 2 1) {}).2

/-- The task record in flight in `c2_mid`. -/
def c2_t0 : Task :=
  { task_id := 0, details := {}, status := "running", retry_count := 0 }

/-- A completed always-failing run under `max_task_retries = 1`: the first
attempt fails and is re-enqueued as a retry; the retry is dispatched and
fails with the budget exhausted. -/
def c2_demo : MasterController :=
  complete_unit
    (dispatch_once (complete_unit c2_mid 1 (Outcome.failure "boom")))
    3 (Outcome.failure "boom")

/-- **C2 (counterexample)**: in the completed always-failing run `c2_demo`
(budget `max_task_retries = 1`) the logical task was enqueued twice in total
(the original plus one retry) and then given up — but no attempt was ever
recorded as failed: both history entries carry status `"completed"`, none
carries `"error"`, and the failure is visible only in the agents' `"error"`
state.  `Agent.receive_task` absorbs the exception and returns normally, so
`_run_agent_task` line 214 writes `'completed'`; at budget exhaustion the
handler only logs "Giving up" (line 262) and records nothing. -/
theorem retry_budget_c2_counterexample :
    c2_demo.task_queue = [] ∧
      c2_demo.active_tasks = [] ∧
      c2_demo.enqueued_log.length = 1 + 1 ∧
      c2_demo.history_log.map Task.status = ["completed", "completed"] ∧
      c2_demo.history_log.filter (fun t => t.status == "error") = [] ∧
      (lookupAgent c2_demo.agents 3).map AgentRec.state = some "error" := by
  decide

/-- **C2** (amended): for a task failing on every attempt, the completion
handler re-enqueues with an incremented retry count exactly while
`retry_count < max_task_retries` and gives up once `retry_count` has reached
`max_task_retries`, so the logical task is re-enqueued exactly
`max_task_retries` times and enqueued `max_task_retries + 1` times in total;
but the exhausted task is never recorded as permanently failed: a failing
attempt leaves the agent in state `"error"` (which is what drives the retry
decision) while its history entry is recorded with status `"completed"`,
because `receive_task` absorbs the exception and the wrapper's success line
214 runs. -/
theorem retry_budget_c2 (m : Nat) :
    failing_enqueue_total m 0 = m + 1 ∧
      retry_requeue "error" m m = none ∧
      (∀ r, r < m → retry_requeue "error" r m = some (r + 1)) ∧
      (∀ msg, agent_final_state (Outcome.failure msg) = "error" ∧
        task_final_status (Outcome.failure msg) = "completed") ∧
      (∀ (s : MasterController) (aid : Nat) (t : Task) (msg : String),
        lookupActive s.active_tasks aid = some t →
        (complete_unit s aid (Outcome.failure msg)).history_log
          = s.history_log ++ [{ t with status := "completed" }]) := by
  refine ⟨?_, ?_, fun r hr => ?_, fun msg => ⟨rfl, rfl⟩,
    fun s aid t msg ht => ?_⟩
  · rw [failing_enqueue_total_val m m 0 rfl]
    omega
  · simp [retry_requeue]
  · simp [retry_requeue, hr]
  · rcases complete_unit_cases (Outcome.failure msg) ht with he | ⟨r2, _, he⟩ <;>
      rw [he]
    · rfl
    · rw [assign_task_eq]
      rfl

theorem retry_budget_c2_witness :
    failing_enqueue_total 2 0 = 2 + 1 ∧
      (1 < 2 ∧ retry_requeue "error" 1 2 = some 2) ∧
      (lookupActive c2_mid.active_tasks 1 = some c2_t0 ∧
        (complete_unit c2_mid 1 (Outcome.failure "boom")).history_log
          = c2_mid.history_log ++ [{ c2_t0 with status := "completed" }]) := by
  refine ⟨(retry_budget_c2 2).1, ⟨by decide, (retry_budget_c2 2).2.2.1 1 (by decide)⟩,
    ⟨by decide, (retry_budget_c2 1).2.2.2.2 c2_mid 1 c2_t0 "boom" (by decide)⟩⟩

/-- `retry_count` along the chain of re-enqueues of an always-failing task:
entry `n` is the retry count carried by the record created by the `n`th retry
re-enqueue (entry 0 being the original enqueue), each step being the retry
decision of `_handle_task_completion`. -/
def nth_retry_count (m : Nat) : Nat → Option Nat
  | 0 => some 0
  | n + 1 =>
    match nth_retry_count m n with
    | some r => retry_requeue "error" r m
    | none => none

theorem nth_retry_count_val (m : Nat) : ∀ n, n ≤ m → nth_retry_count m n = some n := by
  intro n
  induction n with
  | zero => intro _; rfl
  | succ k ih =>
    intro h
    have hk : k < m := by omega
    rw [nth_retry_count, ih (by omega)]
    simp [retry_requeue, hk]

/-- **C3**: every `assign_task` call — in particular every retry re-enqueue of
`_handle_task_completion` — creates a fresh record under a newly drawn uuid,
distinct from every task id, agent id and history id present in the state
(hence never the failed attempt's id), carrying exactly the requested
`retry_count`; and chaining the handler's decision, the record enqueued by the
`N`th retry carries `retry_count = N`. -/
theorem retry_identity_c3 (maxA maxR : Nat) (s : MasterController)
    (hs : ReachableFrom Step (init_ctl maxA maxR) s) :
    (∀ d rc, (assign_task s d rc).1 ∉ ids_of s ∧
      (fresh_task s d rc).task_id = (assign_task s d rc).1 ∧
      (fresh_task s d rc).retry_count = rc ∧
      fresh_task s d rc ∈ (assign_task s d rc).2.task_queue) ∧
      (∀ r, r < maxR → retry_requeue "error" r maxR = some (r + 1)) ∧
      (∀ n, n ≤ maxR → nth_retry_count maxR n = some n) := by
  have hb := baseInv_reachable (baseInv_init maxA maxR) hs
  refine ⟨fun d rc => ⟨?_, rfl, rfl, ?_⟩, fun r hr => ?_, nth_retry_count_val maxR⟩
  · intro hmem
    exact absurd (hb.ids_lt _ hmem) (lt_irrefl _)
  · rw [assign_task_eq]
    by_cases hrc : rc > 0 <;> simp [hrc, fresh_task]
  · simp [retry_requeue, hr]

theorem retry_identity_c3_witness :
    ((assign_task (init_ctl 2 1) {} 1).1 ∉ ids_of (init_ctl 2 1)) ∧
      (0 < 1 ∧ retry_requeue "error" 0 1 = some 1) ∧
      (1 ≤ 1 ∧ nth_retry_count 1 1 = some 1) := by
  have h := retry_identity_c3 2 1 (init_ctl 2 1) ReachableFrom.refl
  exact ⟨(h.1 {} 1).1, ⟨by decide, h.2.1 0 (by decide)⟩, ⟨by decide, h.2.2 1 (by decide)⟩⟩

/-- Concrete dispatcher run with `max_concurrent_agents = 1`: two fresh tasks
are assigned, the first is launched (filling the registry) and completes; the
launch loop then faces the second task with the registry still full. -/
def spin_demo : MasterController :=
  complete_unit
    (dispatch_once (assign_task (assign_task (init_ctl 1 1) {}).2 {}).2)
    2 Outcome.success

/-- **C6** (divergence witness): when routing a dequeued task fails at
capacity, the body of the inner launch loop re-enqueues it with `retry_count`
unchanged (under a fresh id) but the loop is NOT exited: its condition still
holds after the body — and keeps holding — so the loop dequeues and re-attempts
routing again within the same pass instead of breaking (the capacity branch of
`run()`, lines 165-174, has no `break`). -/
theorem capacity_no_break_c6 :
    inner_loop_cond spin_demo = true ∧
      spin_demo.max_concurrent_agents ≤ spin_demo.agents.length ∧
      (dispatch_once spin_demo).active_tasks = spin_demo.active_tasks ∧
      (dispatch_once spin_demo).agents = spin_demo.agents ∧
      ((dispatch_once spin_demo).task_queue.map Task.retry_count
        = spin_demo.task_queue.map Task.retry_count) ∧
      (dispatch_once spin_demo).task_queue.length = spin_demo.task_queue.length ∧
      inner_loop_cond (dispatch_once spin_demo) = true ∧
      inner_loop_cond (dispatch_once (dispatch_once spin_demo)) = true := by
  decide

/-- Folding `assign_task` over a list of details, all with retry count `rc`. -/
def assign_fold (s : MasterController) (ds : List TaskDetails) (rc : Nat) :
    MasterController :=
  ds.foldl (fun s2 d => (assign_task s2 d rc).2) s

/-- The records `assign_task` builds for `ds` under consecutive ids from
`base`. -/
def tasks_from (base rc : Nat) : List TaskDetails → List Task
  | [] => []
  | d :: ds =>
    { task_id := base, details := d, status := "pending", retry_count := rc } ::
      tasks_from (base + 1) rc ds

theorem assign_fold_fresh (ds : List TaskDetails) :
    ∀ s : MasterController,
      (assign_fold s ds 0).task_queue = s.task_queue ++ tasks_from s.next_id 0 ds := by
  induction ds with
  | nil =>
    intro s
    simp [assign_fold, tasks_from]
  | cons d ds ih =>
    intro s
    have h2 := ih (assign_task s d 0).2
    simp only [assign_fold, List.foldl_cons] at h2 ⊢
    rw [h2, assign_task_eq]
    simp [tasks_from, fresh_task, List.append_assoc]

theorem assign_fold_retry (rc : Nat) (hrc : rc > 0) (ds : List TaskDetails) :
    ∀ s : MasterController,
      (assign_fold s ds rc).task_queue
        = (tasks_from s.next_id rc ds).reverse ++ s.task_queue := by
  induction ds with
  | nil =>
    intro s
    simp [assign_fold, tasks_from]
  | cons d ds ih =>
    intro s
    have h2 := ih (assign_task s d rc).2
    simp only [assign_fold, List.foldl_cons] at h2 ⊢
    rw [h2, assign_task_eq]
    simp [tasks_from, fresh_task, hrc, List.append_assoc]

/-- **C7**: `assign_task` appends a fresh task (`retry_count = 0`) at the tail
of the deque — so fresh tasks leave the head-popping queue in FIFO order —
while any retry (`retry_count > 0`) is prepended at the absolute head, ahead
of everything queued; consequently a burst of retries enqueued without
intervening dequeues comes out in reverse (LIFO) order relative to each
other, while a burst of fresh tasks keeps its order. -/
theorem queue_order_c7 :
    (∀ (s : MasterController) (d : TaskDetails),
        (assign_task s d).2.task_queue = s.task_queue ++ [fresh_task s d 0]) ∧
      (∀ (s : MasterController) (d : TaskDetails) (rc : Nat), rc > 0 →
        (assign_task s d rc).2.task_queue = fresh_task s d rc :: s.task_queue) ∧
      (∀ (s : MasterController) (ds : List TaskDetails),
        (assign_fold s ds 0).task_queue = s.task_queue ++ tasks_from s.next_id 0 ds) ∧
      (∀ (s : MasterController) (ds : List TaskDetails) (rc : Nat), rc > 0 →
        (assign_fold s ds rc).task_queue
          = (tasks_from s.next_id rc ds).reverse ++ s.task_queue) := by
  refine ⟨fun s d => ?_, fun s d rc hrc => ?_,
    fun s ds => assign_fold_fresh ds s, fun s ds rc hrc => assign_fold_retry rc hrc ds s⟩
  · rw [assign_task_eq]
    simp
  · rw [assign_task_eq]
    simp [hrc]

theorem queue_order_c7_witness :
    (1 : Nat) > 0 ∧
      (assign_fold (init_ctl 5 1)
          [{ description := some "a" }, { description := some "b" }] 1).task_queue
        = (tasks_from (init_ctl 5 1).next_id 1
            [{ description := some "a" }, { description := some "b" }]).reverse
            ++ (init_ctl 5 1).task_queue :=
  ⟨by decide, queue_order_c7.2.2.2 (init_ctl 5 1) _ 1 (by decide)⟩

/-- **C8**: with type hint `"default"`, `_create_agent` infers the effective
agent type from the task details by ordered first-match rules: a `url` field
selects the browser agent; else a description containing `"create"` selects
the tool-creator; else a `code` or `code_key` field selects the tool-executor;
else a description containing `"find"`, `"research"` or `"gather"` selects the
info-hunter; otherwise the generic default `Agent` class is constructed. -/
theorem default_routing_c8 :
    (∀ info : TaskDetails, info.url.isSome = true →
        effective_agent_type "default" info = "browser" ∧
          agent_class_for (effective_agent_type "default" info) = "BrowserAgent") ∧
      (∀ info : TaskDetails, info.url = none → descLowerHas info "create" = true →
        effective_agent_type "default" info = "tool_creator" ∧
          agent_class_for (effective_agent_type "default" info) = "ToolCreatorAgent") ∧
      (∀ info : TaskDetails, info.url = none → descLowerHas info "create" = false →
        (info.code.isSome = true ∨ info.code_key.isSome = true) →
        effective_agent_type "default" info = "tool_executor" ∧
          agent_class_for (effective_agent_type "default" info) = "ToolExecutorAgent") ∧
      (∀ info : TaskDetails, info.url = none → descLowerHas info "create" = false →
        info.code = none → info.code_key = none →
        (descLowerHas info "find" = true ∨ descLowerHas info "research" = true ∨
          descLowerHas info "gather" = true) →
        effective_agent_type "default" info = "info_hunter" ∧
          agent_class_for (effective_agent_type "default" info) = "InfoHunterAgent") ∧
      (∀ info : TaskDetails, info.url = none → descLowerHas info "create" = false →
        info.code = none → info.code_key = none →
        descLowerHas info "find" = false → descLowerHas info "research" = false →
        descLowerHas info "gather" = false →
        effective_agent_type "default" info = "default" ∧
          agent_class_for (effective_agent_type "default" info) = "Agent") := by
  refine ⟨fun info h1 => ?_, fun info h1 h2 => ?_, fun info h1 h2 h3 => ?_,
    fun info h1 h2 h3 h4 h5 => ?_, fun info h1 h2 h3 h4 h5 h6 h7 => ?_⟩
  · constructor <;> simp [effective_agent_type, agent_class_for, h1]
  · constructor <;> simp [effective_agent_type, agent_class_for, h1, h2]
  · rcases h3 with h3 | h3 <;>
      constructor <;> simp [effective_agent_type, agent_class_for, h1, h2, h3]
  · rcases h5 with h5 | h5 | h5 <;>
      constructor <;>
      simp [effective_agent_type, agent_class_for, h1, h2, h3, h4, h5]
  · constructor <;>
      simp [effective_agent_type, agent_class_for, h1, h2, h3, h4, h5, h6, h7]

theorem default_routing_c8_witness :
    (effective_agent_type "default" { url := some "https://example.com" } = "browser" ∧
      agent_class_for (effective_agent_type "default" { url := some "https://example.com" })
        = "BrowserAgent") ∧
      effective_agent_type "default" { description := some "Create a python script" }
        = "tool_creator" ∧
      effective_agent_type "default" { code_key := some "tool_1" } = "tool_executor" ∧
      effective_agent_type "default" { description := some "go gather data" } = "info_hunter" ∧
      agent_class_for (effective_agent_type "default" { description := some "say hi" })
        = "Agent" := by
  have h := default_routing_c8
  exact ⟨h.1 _ (by decide),
    (h.2.1 _ (by decide) (by decide)).1,
    (h.2.2.1 _ (by decide) (by decide) (Or.inr (by decide))).1,
    (h.2.2.2.1 _ (by decide) (by decide) (by decide) (by decide)
      (Or.inr (Or.inr (by decide)))).1,
    (h.2.2.2.2 _ (by decide) (by decide) (by decide) (by decide) (by decide)
      (by decide) (by decide)).2⟩

theorem history_append_length (h : List Task) (t : Task) :
    (history_append h t).length = min (h.length + 1) history_maxlen := by
  simp [history_append, history_maxlen]
  omega

theorem history_fold_length (es : List Task) :
    ∀ h : List Task, h.length ≤ history_maxlen →
      (es.foldl history_append h).length
        = min (h.length + es.length) history_maxlen := by
  induction es with
  | nil =>
    intro h hh
    simp only [List.foldl_nil, List.length_nil]
    omega
  | cons e es ih =>
    intro h hh
    simp only [List.foldl_cons, List.length_cons]
    rw [ih (history_append h e) (by rw [history_append_length]; omega),
      history_append_length]
    omega

/-- **C9**: the completion history is a bounded ring of capacity 50: an append
below capacity is a plain append, an append at capacity evicts exactly the
single oldest entry, every append preserves `length ≤ 50`, and after any
sequence of more than 50 appends the length is exactly 50. -/
theorem history_bound_c9 :
    history_maxlen = 50 ∧
      (∀ (h : List Task) (t : Task), h.length ≤ 50 →
        (history_append h t).length ≤ 50) ∧
      (∀ (h : List Task) (t : Task), h.length < 50 →
        history_append h t = h ++ [t]) ∧
      (∀ (h : List Task) (t : Task), h.length = 50 →
        history_append h t = h.drop 1 ++ [t]) ∧
      (∀ es : List Task, 50 < es.length →
        (es.foldl history_append []).length = 50) := by
  refine ⟨rfl, fun h t hh => ?_, fun h t hh => ?_, fun h t hh => ?_, fun es hes => ?_⟩
  · rw [history_append_length]
    simp only [history_maxlen]
    omega
  · have h0 : h.length + 1 - history_maxlen = 0 := by
      simp only [history_maxlen]
      omega
    simp [history_append, h0]
  · have h1 : (h ++ [t]).length - history_maxlen = 1 := by
      simp [history_maxlen]
      omega
    simp only [history_append, h1]
    exact List.drop_append_of_le_length (by omega)
  · rw [history_fold_length es [] (by simp [history_maxlen])]
    simp [history_maxlen]
    omega

/-- A fixed task record used to exercise the history ring. -/
def dummy_task : Task :=
  { task_id := 0, details := {}, status := "completed", retry_count := 0 }

theorem history_bound_c9_witness :
    ((List.replicate 50 dummy_task).length = 50 ∧
      history_append (List.replicate 50 dummy_task) dummy_task
        = (List.replicate 50 dummy_task).drop 1 ++ [dummy_task]) ∧
      (50 < (List.replicate 51 dummy_task).length ∧
        ((List.replicate 51 dummy_task).foldl history_append []).length = 50) := by
  have h := history_bound_c9
  exact ⟨⟨by simp, h.2.2.2.1 _ dummy_task (by simp)⟩,
    ⟨by simp, h.2.2.2.2 _ (by simp)⟩⟩

theorem count_append_one (l : List Nat) (x i : Nat) :
    (l ++ [x]).count i = l.count i + (if x = i then 1 else 0) := by
  simp [List.count_append, List.count_singleton]

theorem count_cons_one (l : List Nat) (x i : Nat) :
    (x :: l).count i = l.count i + (if x = i then 1 else 0) := by
  simp [List.count_cons]

/-! ### Task accounting for the no-task-loss property -/

/-- Task ids currently in the queue. -/
def queueIds (s : MasterController) : List Nat := s.task_queue.map Task.task_id

/-- Task ids currently in flight. -/
def activeIds (s : MasterController) : List Nat :=
  s.active_tasks.map (fun p => p.2.task_id)

/-- Task ids ever appended to the completion history. -/
def histIds (s : MasterController) : List Nat := s.history_log.map Task.task_id

/-- Inductive invariant of kill-free runs: on top of `BaseInv`, every id in
`enqueued_log` is accounted for — it sits in the queue, is in flight, was
appended to the history, or was dropped by the capacity-failure re-enqueue
path; a non-empty `dropped_log` locks the run (the queue can never drain
because the registry is full forever); and every history entry carries a
terminal status. -/
structure RunInv (s : MasterController) : Prop where
  base : BaseInv s
  account : ∀ i : Nat, s.enqueued_log.count i =
    (queueIds s).count i + (activeIds s).count i + (histIds s).count i +
      s.dropped_log.count i
  drop_lock : s.dropped_log ≠ [] →
    s.task_queue ≠ [] ∧ s.max_concurrent_agents ≤ s.agents.length
  hist_status : ∀ t ∈ s.history_log,
    t.status = "completed" ∨ t.status = "error" ∨ t.status = "cancelled"

theorem runInv_init (a r : Nat) : RunInv (init_ctl a r) := by
  refine ⟨baseInv_init a r, fun i => ?_, fun hne => absurd rfl hne, fun t ht => ?_⟩
  · simp [init_ctl, queueIds, activeIds, histIds]
  · simp [init_ctl] at ht

theorem runInv_assign {s : MasterController} (h : RunInv s)
    (d : TaskDetails) (rc : Nat) : RunInv (assign_task s d rc).2 := by
  refine ⟨baseInv_assign h.base d rc, fun i => ?_, fun hne => ?_, fun t ht => ?_⟩
  · have hacc := h.account i
    have e1 : (assign_task s d rc).2.enqueued_log = s.enqueued_log ++ [s.next_id] := by
      rw [assign_task_eq]
    have e2 : activeIds (assign_task s d rc).2 = activeIds s := by
      rw [assign_task_eq]
      rfl
    have e3 : histIds (assign_task s d rc).2 = histIds s := by
      rw [assign_task_eq]
      rfl
    have e4 : (assign_task s d rc).2.dropped_log = s.dropped_log := by
      rw [assign_task_eq]
    have e5 : queueIds (assign_task s d rc).2
        = if rc > 0 then s.next_id :: queueIds s else queueIds s ++ [s.next_id] := by
      rw [assign_task_eq]
      by_cases hrc : rc > 0 <;> simp [hrc, queueIds, fresh_task]
    rw [e1, e2, e3, e4, e5, count_append_one]
    by_cases hrc : rc > 0 <;>
      simp only [hrc, ite_true, ite_false, count_cons_one, count_append_one] <;>
      omega
  · have e1 : (assign_task s d rc).2.dropped_log = s.dropped_log := by
      rw [assign_task_eq]
    have e2 : (assign_task s d rc).2.agents = s.agents := by
      rw [assign_task_eq]
    have e3 : (assign_task s d rc).2.max_concurrent_agents
        = s.max_concurrent_agents := by rw [assign_task_eq]
    rw [e1] at hne
    have h2 := h.drop_lock hne
    refine ⟨?_, by rw [e2, e3]; exact h2.2⟩
    have e4 : (assign_task s d rc).2.task_queue
        = if rc > 0 then fresh_task s d rc :: s.task_queue
          else s.task_queue ++ [fresh_task s d rc] := by rw [assign_task_eq]
    rw [e4]
    by_cases hrc : rc > 0 <;> simp [hrc]
  · have e5 : (assign_task s d rc).2.history_log = s.history_log := by
      rw [assign_task_eq]
    rw [e5] at ht
    exact h.hist_status t ht

theorem runInv_dispatch {s : MasterController} (h : RunInv s) :
    RunInv (dispatch_once s) := by
  cases hq : s.task_queue with
  | nil =>
    have h2 : dispatch_once s = s := by simp [dispatch_once, hq]
    rw [h2]
    exact h
  | cons t rest =>
    have hqids : queueIds s = t.task_id :: List.map Task.task_id rest := by
      simp [queueIds, hq]
    by_cases hcap : s.max_concurrent_agents ≤ s.agents.length
    · refine ⟨baseInv_dispatch h.base, fun i => ?_, fun hne => ?_, fun u hu => ?_⟩
      · have hacc := h.account i
        rw [hqids, count_cons_one] at hacc
        have e1 : (dispatch_once s).enqueued_log = s.enqueued_log ++ [s.next_id] := by
          rw [dispatch_once_fail hq hcap]
        have e2 : activeIds (dispatch_once s) = activeIds s := by
          rw [dispatch_once_fail hq hcap]
          rfl
        have e3 : histIds (dispatch_once s) = histIds s := by
          rw [dispatch_once_fail hq hcap]
          rfl
        have e4 : (dispatch_once s).dropped_log = s.dropped_log ++ [t.task_id] := by
          rw [dispatch_once_fail hq hcap]
        have e5 : queueIds (dispatch_once s)
            = if t.retry_count > 0 then s.next_id :: List.map Task.task_id rest
              else List.map Task.task_id rest ++ [s.next_id] := by
          rw [dispatch_once_fail hq hcap]
          by_cases hrc : t.retry_count > 0 <;> simp [hrc, queueIds, fresh_task]
        rw [e1, e2, e3, e4, e5]
        by_cases hrc : t.retry_count > 0 <;>
          simp only [hrc, ite_true, ite_false, count_cons_one, count_append_one] <;>
          omega
      · have e6 : (dispatch_once s).agents = s.agents := by
          rw [dispatch_once_fail hq hcap]
        have e7 : (dispatch_once s).max_concurrent_agents
            = s.max_concurrent_agents := by rw [dispatch_once_fail hq hcap]
        have e8 : (dispatch_once s).task_queue
            = if t.retry_count > 0 then
                fresh_task { s with task_queue := rest } t.details t.retry_count :: rest
              else rest ++ [fresh_task { s with task_queue := rest } t.details t.retry_count] := by
          rw [dispatch_once_fail hq hcap]
        refine ⟨?_, by rw [e6, e7]; exact hcap⟩
        rw [e8]
        by_cases hrc : t.retry_count > 0 <;> simp [hrc]
      · have e9 : (dispatch_once s).history_log = s.history_log := by
          rw [dispatch_once_fail hq hcap]
        rw [e9] at hu
        exact h.hist_status u hu
    · refine ⟨baseInv_dispatch h.base, fun i => ?_, fun hne => ?_, fun u hu => ?_⟩
      · have hacc := h.account i
        rw [hqids, count_cons_one] at hacc
        have e1 : (dispatch_once s).enqueued_log = s.enqueued_log := by
          rw [dispatch_once_success hq hcap]
        have e2 : activeIds (dispatch_once s) = activeIds s ++ [t.task_id] := by
          rw [dispatch_once_success hq hcap]
          simp [activeIds]
        have e3 : histIds (dispatch_once s) = histIds s := by
          rw [dispatch_once_success hq hcap]
          rfl
        have e4 : (dispatch_once s).dropped_log = s.dropped_log := by
          rw [dispatch_once_success hq hcap]
        have e5 : queueIds (dispatch_once s) = List.map Task.task_id rest := by
          rw [dispatch_once_success hq hcap]
          rfl
        rw [e1, e2, e3, e4, e5, count_append_one]
        omega
      · have e4 : (dispatch_once s).dropped_log = s.dropped_log := by
          rw [dispatch_once_success hq hcap]
        rw [e4] at hne
        exact absurd (h.drop_lock hne).2 hcap
      · have e3 : (dispatch_once s).history_log = s.history_log := by
          rw [dispatch_once_success hq hcap]
        rw [e3] at hu
        exact h.hist_status u hu

theorem runInv_post_run {s : MasterController} {aid : Nat} {t : Task}
    (h : RunInv s) (o : Outcome)
    (ht : lookupActive s.active_tasks aid = some t) :
    RunInv (post_run_state s aid t o) := by
  refine ⟨baseInv_post_run h.base o ht, fun i => ?_, fun hne => ?_, fun u hu => ?_⟩
  · have hacc := h.account i
    have hperm :=
      (perm_cons_removeActive h.base.active_keys_nodup ht).map
        (fun p : Nat × Task => p.2.task_id)
    have hcount := hperm.count_eq i
    simp only [List.map_cons, count_cons_one] at hcount
    have e2 : activeIds (post_run_state s aid t o)
        = List.map (fun p : Nat × Task => p.2.task_id) (removeActive s.active_tasks aid) := rfl
    have e3 : histIds (post_run_state s aid t o) = histIds s ++ [t.task_id] := by
      simp [histIds, post_run_state]
    have e1 : (post_run_state s aid t o).enqueued_log = s.enqueued_log := rfl
    have e5 : queueIds (post_run_state s aid t o) = queueIds s := rfl
    have e6 : (post_run_state s aid t o).dropped_log = s.dropped_log := rfl
    rw [e1, e5, e6, e2, e3, count_append_one]
    simp only [activeIds] at hacc hcount
    omega
  · have h2 := h.drop_lock hne
    refine ⟨h2.1, ?_⟩
    have e4 : (post_run_state s aid t o).agents.length = s.agents.length := by
      simp [post_run_state, length_setAgentState]
    rw [e4]
    exact h2.2
  · simp only [post_run_state, List.mem_append, List.mem_singleton] at hu
    rcases hu with hu | rfl
    · exact h.hist_status u hu
    · cases o <;> simp [task_final_status]

theorem runInv_complete {s : MasterController} (h : RunInv s)
    (aid : Nat) (o : Outcome) : RunInv (complete_unit s aid o) := by
  cases ht : lookupActive s.active_tasks aid with
  | none =>
    rw [complete_unit_of_unmapped o ht]
    exact h
  | some t =>
    rcases complete_unit_cases o ht with he | ⟨r2, _, he⟩ <;> rw [he]
    · exact runInv_post_run h o ht
    · exact runInv_assign (runInv_post_run h o ht) t.details r2

theorem runInv_runStep {s s2 : MasterController} (hs : RunStep s s2)
    (h : RunInv s) : RunInv s2 := by
  cases hs with
  | assign d => exact runInv_assign h d 0
  | dispatch h2 => exact runInv_dispatch h
  | complete aid o h2 => exact runInv_complete h aid o

theorem runInv_runReachable {maxA maxR : Nat} {s : MasterController}
    (hr : ReachableFrom RunStep (init_ctl maxA maxR) s) : RunInv s := by
  induction hr with
  | refl => exact runInv_init maxA maxR
  | tail hr2 hstep ih => exact runInv_runStep hstep ih

/-- **C5**: in a kill-free run (any interleaving of external fresh
`assign_task` arrivals, launch-loop iterations and unit completions with
retries) that runs to completion — queue drained and no unit in flight —
every task id ever handed out by `assign_task` has been appended to the
completion-history trace exactly once, with a terminal status among
`"completed"`, `"error"` and `"cancelled"`: no enqueued task is lost and none
is recorded twice. -/
theorem no_task_loss_c5 (maxA maxR : Nat) (s : MasterController)
    (hs : ReachableFrom RunStep (init_ctl maxA maxR) s)
    (hq : s.task_queue = []) (ha : s.active_tasks = []) :
    (∀ i ∈ s.enqueued_log, (histIds s).count i = 1) ∧
      (∀ t ∈ s.history_log,
        t.status = "completed" ∨ t.status = "error" ∨ t.status = "cancelled") := by
  have hinv := runInv_runReachable hs
  refine ⟨fun i hi => ?_, hinv.hist_status⟩
  have hacc := hinv.account i
  have hdrop : s.dropped_log = [] := by
    by_contra hne
    exact (hinv.drop_lock hne).1 hq
  have hq0 : (queueIds s).count i = 0 := by
    simp [queueIds, hq]
  have ha0 : (activeIds s).count i = 0 := by
    simp [activeIds, ha]
  have hd0 : s.dropped_log.count i = 0 := by
    simp [hdrop]
  have h1 : 0 < s.enqueued_log.count i := List.count_pos_iff.mpr hi
  have h2 : s.enqueued_log.count i ≤ 1 :=
    List.nodup_iff_count_le_one.mp hinv.base.enqueued_nodup i
  omega

/-- A complete kill-free run: one task assigned, dispatched and completed. -/
def c5_demo : MasterController :=
  complete_unit (dispatch_once (assign_task (init_ctl 1 1) {}).2) 1 Outcome.success

theorem no_task_loss_c5_witness :
    (c5_demo.task_queue = [] ∧ c5_demo.active_tasks = []) ∧
      ∀ i ∈ c5_demo.enqueued_log, (histIds c5_demo).count i = 1 := by
  have hr : ReachableFrom RunStep (init_ctl 1 1) c5_demo :=
    ReachableFrom.tail
      (ReachableFrom.tail
        (ReachableFrom.tail ReachableFrom.refl (RunStep.assign _ {}))
        (RunStep.dispatch _ (by decide)))
      (RunStep.complete _ 1 Outcome.success (by decide))
  exact ⟨⟨by decide, by decide⟩,
    (no_task_loss_c5 1 1 c5_demo hr (by decide) (by decide)).1⟩

end TAC
